import Mathlib

/-!
Verification of the feature-table QAQC engine (`src/pcpfm/FeatureTable.py`)
against its natural-language specification.

Conventions of the shallow embedding:
* A pandas feature table is modelled by `FTable`: the list of sample-column
  names currently present in the table together with the list of feature rows.
  Each feature row carries the non-sample columns `id_number`, `mz`, `rtime`
  explicitly and its per-sample intensities as a total function from column
  name to value.
* Python floats are modelled by `ℚ` (all the arithmetic the claims exercise is
  exact: sums, means, divisions, comparisons).
* Fallible Python code (raised exceptions) is modelled with `Except String`.
* External collaborators (the experiment object) are passed as explicit
  arguments: blank/sample classification lists, batch partitions, the
  moniker-to-path registry.
-/

unseal Rat.mul Rat.inv Rat.add Rat.sub

namespace PCPFM

/-- One row of the feature table: the non-sample columns `id_number`, `mz`,
`rtime`, and the intensities of the row in each sample column (a total
function from column name to value, as a pandas row lookup). -/
structure Feature where
  id_number : Nat
  mz : ℚ
  rtime : ℚ
  intensity : String → ℚ

/-- The feature table: `samples` is the list `sample_columns` (the columns of
the frame whose name is registered as a sample in the experiment), `features`
the rows. Non-sample columns live inside each `Feature`. -/
structure FTable where
  samples : List String
  features : List Feature

/-! ### SpatialIndex: `get_mz_tree` and the mz branch of `search_for_feature`
(FeatureTable.py lines 114-128 and 456-489). -/

/-- Lower bound of the interval `get_mz_tree` inserts for a feature:
`mz - mz / 1e6 * mz_tol` (FeatureTable.py line 126). -/
def mzLower (f : Feature) (mz_tol : ℚ) : ℚ :=
  f.mz - f.mz / 1000000 * mz_tol

/-- Upper bound of the interval `get_mz_tree` inserts for a feature:
`mz + mz / 1e6 * mz_tol` (FeatureTable.py line 126). -/
def mzUpper (f : Feature) (mz_tol : ℚ) : ℚ :=
  f.mz + f.mz / 1000000 * mz_tol

/-- The features whose `get_mz_tree` interval contains the query point.
The `intervaltree` package used by the source stores half-open intervals:
`tree.at(p)` returns the intervals with `begin <= p < end`. -/
def mzTreeAt (t : FTable) (mz_tol query : ℚ) : List Feature :=
  t.features.filter (fun f =>
    decide (mzLower f mz_tol ≤ query) && decide (query < mzUpper f mz_tol))

/-- The `query_mz`/`mz_tolerance` branch of `search_for_feature`
(FeatureTable.py lines 477-480): the `data` payloads (feature id numbers) of
the intervals of the mz tree that contain the query mass. -/
def search_for_feature_mz (t : FTable) (query_mz mz_tolerance : ℚ) : List Nat :=
  (mzTreeAt t mz_tolerance query_mz).map (fun f => f.id_number)

/-! ### intensity_analysis (FeatureTable.py lines 599-688). -/

/-- Column-wise sum of the sample part of the table:
`intensity_sums = np.sum(selected_ftable, axis=0)` (line 612). -/
def intensity_sums (t : FTable) (s : String) : ℚ :=
  (t.features.map (fun f => f.intensity s)).sum

/-- `TICs = np.nansum(selected_ftable, axis=0)` after the zero cells were
replaced by NaN (lines 617 and 626): the sum of the nonzero cells of the
column. -/
def nansum_tics (t : FTable) (s : String) : ℚ :=
  ((t.features.map (fun f => f.intensity s)).filter (fun x => !decide (x = 0))).sum

/-- The per-sample result mappings of `intensity_analysis` that the claims
are about (of the eleven computed by the source). -/
structure IntensityAnalysisResult where
  sum_intensity : String → ℚ
  missing_dropped_sum_intensity : String → ℚ
  tics : String → ℚ

/-- `intensity_analysis` (lines 599-688): the `tables` list pairs the title
`"missing_dropped_sum_intensity"` with `intensity_sums` again (lines 629-651),
and `result_values` zips `intensity_sums` for both `"sum_intensity"` and
`"missing_dropped_sum_intensity"` (lines 667 and 670); `"tics"` gets the
NaN-skipping sum (line 677). -/
def intensity_analysis (t : FTable) : IntensityAnalysisResult where
  sum_intensity := intensity_sums t
  missing_dropped_sum_intensity := intensity_sums t
  tics := nansum_tics t

/-! ### num_features / num_samples (FeatureTable.py lines 191-207). -/

/-- `self.feature_table.shape[0]`: the number of rows of the frame, one row
per feature. -/
def shape0 (t : FTable) : Nat :=
  t.features.length

/-- `num_features` (lines 191-198): `return self.feature_table.shape[0] - 1`,
a Python integer subtraction. -/
def num_features (t : FTable) : ℤ :=
  (shape0 t : ℤ) - 1

/-- `num_samples` (lines 200-207): `return len(self.sample_columns)`. -/
def num_samples (t : FTable) : Nat :=
  t.samples.length

/-! ### blank_mask, unbatched branch (FeatureTable.py lines 1077-1158).
The blank/sample classification comes from the experiment collaborator
(`filter_samples` on the `query_field` metadata); it enters the embedding as
the two explicit name lists. -/

/-- The helper `__non_zero_mean` (lines 1115-1117): the mean of the strictly
positive values of the row in the given columns, and 0 when there is none. -/
def nonZeroMean (f : Feature) (columns : List String) : ℚ :=
  let nonZero := (columns.map f.intensity).filter (fun x => decide (0 < x))
  if nonZero.length = 0 then 0 else nonZero.sum / (nonZero.length : ℚ)

/-- The per-feature flag of the unbatched branch (lines 1150-1154):
`blank_mean * blank_intensity_ratio > sample_mean`. -/
def blankMaskFlag (blankNames sampleNames : List String) (ratio : ℚ)
    (f : Feature) : Bool :=
  decide (nonZeroMean f blankNames * ratio > nonZeroMean f sampleNames)

/-- `blank_mask` without batching (lines 1149-1158): keep exactly the rows
whose `mask_feature` flag is false, then drop the helper column. -/
def blank_mask (t : FTable) (blankNames sampleNames : List String)
    (ratio : ℚ) : FTable where
  samples := t.samples
  features := t.features.filter (fun f => !blankMaskFlag blankNames sampleNames ratio f)

/-! ### drop_missing_features, batched branch (FeatureTable.py lines
1286-1324). The batch partition comes from `experiment.batches(by_batch)`. -/

/-- The `logic_mode` argument; the source compares the string against
`"and"` and `"or"`. -/
inductive LogicMode where
  | or : LogicMode
  | and : LogicMode

/-- Percent inclusion of a feature over a column list:
`np.sum(row > 0) / len(columns)` (line 1315). -/
def percentInclusionOn (columns : List String) (f : Feature) : ℚ :=
  ((columns.map f.intensity).countP (fun x => decide (0 < x)) : ℚ) / (columns.length : ℚ)

/-- The per-batch column lists actually used: each batch's sample names
restricted to the table's sample columns (line 1314). -/
def batchColumns (t : FTable) (batches : List (String × List String)) : List (List String) :=
  batches.map (fun b => b.2.filter (fun x => decide (x ∈ t.samples)))

/-- The `drop_feature` flag of the batched branch (lines 1304-1320):
`logic_mode="or"` uses `__any`, i.e. `not np.any(row[batch_columns] >=
drop_percentile)`; `logic_mode="and"` uses `__all`, i.e.
`not np.all(row[batch_columns] >= drop_percentile)`. -/
def dropMissingFlag (t : FTable) (batches : List (String × List String))
    (drop_percentile : ℚ) (logic_mode : LogicMode) (f : Feature) : Bool :=
  match logic_mode with
  | .or => !(batchColumns t batches).any
      (fun cols => decide (percentInclusionOn cols f ≥ drop_percentile))
  | .and => !(batchColumns t batches).all
      (fun cols => decide (percentInclusionOn cols f ≥ drop_percentile))

/-- `drop_missing_features` with `by_batch` set (lines 1310-1324): keep
exactly the rows whose `drop_feature` flag is false, then drop the helper
columns. -/
def drop_missing_features (t : FTable) (batches : List (String × List String))
    (drop_percentile : ℚ) (logic_mode : LogicMode) : FTable where
  samples := t.samples
  features := t.features.filter
    (fun f => !dropMissingFlag t batches drop_percentile logic_mode f)

/-! ### Concrete input for claim C1. -/

/-- A feature with round numbers: at tolerance 1 ppm its mz tree interval is
`[999999, 1000001)`. -/
def c1feat : Feature where
  id_number := 7
  mz := 1000000
  rtime := 100
  intensity := fun _ => 0

/-- One-feature table used to probe the mass query at the interval endpoints. -/
def c1tbl : FTable where
  samples := ["S1"]
  features := [c1feat]

/-! ### drop_invariants (FeatureTable.py lines 976-1015). -/

/-- The Python `set` of the row's values over the given columns has exactly
one element, i.e. the row is constant across them (lines 988-993). -/
def isConstantRow (columns : List String) (f : Feature) : Bool :=
  decide ((columns.map f.intensity).dedup.length = 1)

/-- The set of a sample column's values over the given rows has exactly one
element (lines 1007-1009). -/
def isConstantCol (feats : List Feature) (s : String) : Bool :=
  decide ((feats.map (fun f => f.intensity s)).dedup.length = 1)

/-- `drop_invariants` with the default `zeros_only=False`: drop every feature
row that is constant across the sample columns (lines 1000-1005), then drop
every sample column that is constant across the remaining rows (lines
1007-1015). On this path the `zeros_only and values[0] == 0` test
short-circuits before the set subscript, and both branches of the inner `if`
return the same drop decision. -/
def drop_invariants (t : FTable) : FTable :=
  let kept := t.features.filter (fun f => !isConstantRow t.samples f)
  { samples := t.samples.filter (fun s => !isConstantCol kept s)
    features := kept }

/-- One pass of the invariant-dropping loops with the exception behavior made
explicit: whenever an entry is constant and `zeros_only` is set, the source
evaluates `values[0]` on a Python `set`, which raises `TypeError` (sets do not
support subscripting); with `zeros_only` unset the entry is dropped. -/
def dropConstE {α : Type} (zeros_only : Bool) (isConst : α → Bool) :
    List α → Except String (List α)
  | [] => Except.ok []
  | x :: xs =>
    if isConst x then
      if zeros_only then Except.error "TypeError: set object is not subscriptable"
      else dropConstE zeros_only isConst xs
    else
      match dropConstE zeros_only isConst xs with
      | Except.error e => Except.error e
      | Except.ok rest => Except.ok (x :: rest)

/-- `drop_invariants(zeros_only)` with the exception behavior of the set
subscript modelled: the row pass runs first (inside `DataFrame.apply`), then
the column pass over the remaining rows. -/
def drop_invariantsE (zeros_only : Bool) (t : FTable) : Except String FTable :=
  match dropConstE zeros_only (isConstantRow t.samples) t.features with
  | Except.error e => Except.error e
  | Except.ok kept =>
    match dropConstE zeros_only (isConstantCol kept) t.samples with
    | Except.error e => Except.error e
    | Except.ok keptSamples => Except.ok { samples := keptSamples, features := kept }

/-! ### TIC_normalize, unbatched branch (FeatureTable.py lines 1195-1238),
and the central statistics it selects from `utils.descriptive_stat_modes`. -/

/-- Modelled from the spec: the mapping `utils.descriptive_stat_modes` lives
in the `utils` module, which is not among the given sources; the spec
describes it as selecting a "central statistic (`min`/`median`/etc.)", with
`median` the default `normalize_mode` of `TIC_normalize`. Four central
statistics are modelled. -/
inductive NormalizeMode where
  | median : NormalizeMode
  | mean : NormalizeMode
  | min : NormalizeMode
  | max : NormalizeMode

/-- Modelled from the spec: `np.median` of a list of values — the middle
element of the sorted values, or the average of the two middle elements when
the length is even. -/
def npMedian (l : List ℚ) : ℚ :=
  let s := l.insertionSort (· ≤ ·)
  if l.length % 2 = 1 then s.getD (l.length / 2) 0
  else (s.getD (l.length / 2 - 1) 0 + s.getD (l.length / 2) 0) / 2

/-- Modelled from the spec: the mean of a list of values. -/
def listMean (l : List ℚ) : ℚ :=
  l.sum / (l.length : ℚ)

/-- Modelled from the spec: the minimum of a list of values. -/
def listMin : List ℚ → ℚ
  | [] => 0
  | x :: xs => xs.foldl Min.min x

/-- Modelled from the spec: the maximum of a list of values. -/
def listMax : List ℚ → ℚ
  | [] => 0
  | x :: xs => xs.foldl Max.max x

/-- The central statistic selected by `normalize_mode`. -/
def NormalizeMode.stat : NormalizeMode → List ℚ → ℚ
  | NormalizeMode.median => npMedian
  | NormalizeMode.mean => listMean
  | NormalizeMode.min => listMin
  | NormalizeMode.max => listMax

/-- The `percent_inclusion` helper column of the unbatched branch (line
1232): per feature, the fraction of sample columns holding a strictly
positive value. -/
def percent_inclusion (t : FTable) (f : Feature) : ℚ :=
  ((t.samples.map f.intensity).countP (fun x => decide (0 < x)) : ℚ) /
    (t.samples.length : ℚ)

/-- The rows whose percent inclusion strictly exceeds
`TIC_normalization_percentile` — the rows the TIC sums are restricted to
(line 1233). -/
def qualifyingFeatures (t : FTable) (pct : ℚ) : List Feature :=
  t.features.filter (fun f => decide (pct < percent_inclusion t f))

/-- A sample's TIC (line 1233): the sum of the sample column over the
qualifying rows. -/
def TIC (t : FTable) (pct : ℚ) (s : String) : ℚ :=
  ((qualifyingFeatures t pct).map (fun f => f.intensity s)).sum

/-- The TICs of all sample columns, in column order. -/
def sampleTICs (t : FTable) (pct : ℚ) : List ℚ :=
  t.samples.map (TIC t pct)

/-- `norm_factors` (lines 1234-1235): the central statistic of all TICs
divided by this sample's TIC. -/
def norm_factor (t : FTable) (pct : ℚ) (mode : NormalizeMode) (s : String) : ℚ :=
  mode.stat (sampleTICs t pct) / TIC t pct s

/-- The effect of the scaling loop (lines 1236-1237) on one row: every
sample column is multiplied by its normalization factor; non-sample columns
are untouched. -/
def scaleFeature (t : FTable) (pct : ℚ) (mode : NormalizeMode) (f : Feature) : Feature :=
  { f with intensity := fun s =>
      if s ∈ t.samples then f.intensity s * norm_factor t pct mode s
      else f.intensity s }

/-- `TIC_normalize` without batching (lines 1230-1238): compute the percent
inclusions, restrict the TIC sums to the qualifying rows, scale every sample
column by `stat(TICs) / TIC`, and drop the helper column. -/
def TIC_normalize (t : FTable) (pct : ℚ) (mode : NormalizeMode) : FTable where
  samples := t.samples
  features := t.features.map (scaleFeature t pct mode)

/-! ### TSNE (FeatureTable.py lines 779-807). -/

/-- The value Python's `TSNE` method hands back to its caller: `result p` is
the `Type: tsne` record built from a successful embedding at perplexity `p`,
`emptyDict` the `return` of the empty dict in the perplexity-0 failure branch,
and `pyNone` Python's implicit `None`. -/
inductive TsneOutcome where
  | result : Nat → TsneOutcome
  | emptyDict : TsneOutcome
  | pyNone : TsneOutcome
deriving DecidableEq

/-- `TSNE(perplexity)` as a function of an oracle `embedOk` telling whether
the sklearn embedding succeeds at a given perplexity (the `try` block, lines
788-802). The bare `except` catches every failure, so nothing ever propagates
to the caller. In the retry branch (line 805) the source calls
`self.TSNE(perplexity=perplexity-1)` without a `return`, so the recursive
result is computed and discarded and the function falls off its end,
returning Python `None`. -/
def tsneRun (embedOk : Nat → Bool) : Nat → TsneOutcome
  | 0 => if embedOk 0 then TsneOutcome.result 0 else TsneOutcome.emptyDict
  | p + 1 =>
    if embedOk (p + 1) then TsneOutcome.result (p + 1)
    else
      match tsneRun embedOk p with
      | _ => TsneOutcome.pyNone

/-! ### save (FeatureTable.py lines 244-278). -/

/-- The on-disk path registered for a moniker:
`new_moniker + "_Feature_table.tsv"` inside the filtered-tables directory
(line 271). -/
def outputPath (moniker : String) : String :=
  moniker ++ "_Feature_table.tsv"

/-- Python dict assignment `experiment.feature_tables[new_moniker] = path`
(line 273) on the registry modelled as an association list: replace the value
in place when the key exists, append otherwise. -/
def updateReg (reg : List (String × String)) (k v : String) : List (String × String) :=
  if reg.any (fun p => decide (p.1 = k)) then
    reg.map (fun p => if p.1 = k then (k, v) else p)
  else reg ++ [(k, v)]

/-- `save(new_moniker, drop_invariants=True)` (lines 244-278). When
`new_moniker` is `None` the current moniker is reused and checked against the
two reserved names, raising `Exception("Cannot overwrite asari feature
tables")` for `"preferred"` and `"full"`; when `new_moniker` is passed
explicitly this check is skipped. Then invariants are dropped and the
registry entry for the chosen moniker is pointed at the output path (the
try/except around the disk write is modelled on its success path). -/
def save (t : FTable) (moniker : String) (new_moniker : Option String)
    (reg : List (String × String)) :
    Except String (FTable × List (String × String)) :=
  match new_moniker with
  | none =>
    if moniker = "preferred" ∨ moniker = "full" then
      Except.error "Cannot overwrite asari feature tables"
    else
      Except.ok (drop_invariants t, updateReg reg moniker (outputPath moniker))
  | some nm =>
    Except.ok (drop_invariants t, updateReg reg nm (outputPath nm))

/-- The persisted registry entries of the two asari result tables before any
`save`. -/
def asariReg : List (String × String) :=
  [("preferred", "preferred_asari.tsv"), ("full", "full_asari.tsv")]

/-! ### Concrete inputs for claims C2 and C3. -/

/-- Feature 1 of the end-to-end blank-mask scenario: intensities
`[100, 90, 5, 6]` over the samples `S1, S2` (Unknown) and `B1, B2` (Blank). -/
def c2f1 : Feature where
  id_number := 1
  mz := 100
  rtime := 10
  intensity := fun s =>
    if s = "S1" then 100 else if s = "S2" then 90 else
    if s = "B1" then 5 else if s = "B2" then 6 else 0

/-- Feature 2 of the scenario: intensities `[50, 55, 1, 1]`. -/
def c2f2 : Feature where
  id_number := 2
  mz := 200
  rtime := 20
  intensity := fun s =>
    if s = "S1" then 50 else if s = "S2" then 55 else
    if s = "B1" then 1 else if s = "B2" then 1 else 0

/-- Feature 3 of the scenario: all-zero intensities. -/
def c2f3 : Feature where
  id_number := 3
  mz := 300
  rtime := 30
  intensity := fun _ => 0

/-- The 3-feature, 4-sample table of the end-to-end scenario; `S1`/`S2` are
classified as `"Unknown"` and `B1`/`B2` as `"Blank"` by the experiment. -/
def c2tbl : FTable where
  samples := ["S1", "S2", "B1", "B2"]
  features := [c2f1, c2f2, c2f3]

/-- A feature present in sample `s2` but absent (zero) in sample `s1`:
per-batch percent inclusion 0 in batch `b1` and 1 in batch `b2`. -/
def c3feat : Feature where
  id_number := 1
  mz := 100
  rtime := 10
  intensity := fun s => if s = "s2" then 5 else 0

/-- One-feature, two-sample table for the batched drop test. -/
def c3tbl : FTable where
  samples := ["s1", "s2"]
  features := [c3feat]

/-- Two singleton batches partitioning the two samples. -/
def c3batches : List (String × List String) :=
  [("b1", ["s1"]), ("b2", ["s2"])]

/-! ### Concrete inputs for claims C4 and C8. -/

/-- A feature that is constant (value 5) across both sample columns. -/
def c4feat : Feature where
  id_number := 1
  mz := 100
  rtime := 10
  intensity := fun s => if s = "a" then 5 else if s = "b" then 5 else 0

/-- A table containing one constant feature row: the input on which
`drop_invariants(zeros_only=True)` hits the set subscript. -/
def c4tbl : FTable where
  samples := ["a", "b"]
  features := [c4feat]

/-- Feature with values 1, 5, 5 over the three samples. -/
def c8f1 : Feature where
  id_number := 1
  mz := 100
  rtime := 10
  intensity := fun s => if s = "s1" then 1 else if s = "s2" then 5 else
    if s = "s3" then 5 else 0

/-- Feature with values 2, 5, 5 over the three samples. -/
def c8f2 : Feature where
  id_number := 2
  mz := 200
  rtime := 20
  intensity := fun s => if s = "s1" then 2 else if s = "s2" then 5 else
    if s = "s3" then 5 else 0

/-- A table on which `drop_invariants` is not idempotent: the first pass keeps
both (non-constant) rows but drops the constant columns `s2` and `s3`; over
the surviving single column every row is constant, so a second pass drops all
rows. -/
def c8tbl : FTable where
  samples := ["s1", "s2", "s3"]
  features := [c8f1, c8f2]

/-- Feature with values 1, 2 over the two samples. -/
def noInvF1 : Feature where
  id_number := 1
  mz := 100
  rtime := 10
  intensity := fun s => if s = "a" then 1 else if s = "b" then 2 else 0

/-- Feature with values 3, 4 over the two samples. -/
def noInvF2 : Feature where
  id_number := 2
  mz := 200
  rtime := 20
  intensity := fun s => if s = "a" then 3 else if s = "b" then 4 else 0

/-- A table with no constant row and no constant column: `drop_invariants`
leaves it untouched. -/
def noInvTbl : FTable where
  samples := ["a", "b"]
  features := [noInvF1, noInvF2]

/-! ### Concrete input for claim C7. -/

/-- A feature present in both samples (percent inclusion 1): it qualifies at
the default 0.90 percentile. -/
def c7f1 : Feature where
  id_number := 1
  mz := 100
  rtime := 10
  intensity := fun s => if s = "u1" then 10 else if s = "u2" then 30 else 0

/-- A feature present in one of the two samples (percent inclusion 1/2): it
does not qualify at the 0.90 percentile. -/
def c7f2 : Feature where
  id_number := 2
  mz := 200
  rtime := 20
  intensity := fun s => if s = "u1" then 5 else 0

/-- Two-sample table for the TIC-normalization witness: the qualifying TICs
are 10 and 30, both positive. -/
def c7tbl : FTable where
  samples := ["u1", "u2"]
  features := [c7f1, c7f2]

end PCPFM

namespace PCPFM

/-- Claim C1, counterexample: at the upper endpoint the claimed closed-interval
membership fails. For the feature with `mz = 1000000` and tolerance 1 ppm the
query mass 1000001 satisfies `|F.mz - mz| ≤ F.mz * t / 1e6` (both sides are 1),
yet `search_for_feature` does not return the feature because the interval tree
stores half-open intervals. -/
theorem c1_counterexample :
    |c1feat.mz - 1000001| ≤ c1feat.mz * 1 / 1000000 ∧
      search_for_feature_mz c1tbl 1000001 1 = [] := by
  constructor
  · norm_num [c1feat]
  · decide

/-- Claim C1, amended: `search_for_feature(query_mz, mz_tolerance)` contains an
id number iff some feature with that id number satisfies
`F.mz - F.mz·t/1e6 ≤ mz < F.mz + F.mz·t/1e6`: the match interval is closed at
the lower endpoint and open at the upper endpoint. -/
theorem c1_amended (t : FTable) (query_mz mz_tolerance : ℚ) (i : Nat) :
    i ∈ search_for_feature_mz t query_mz mz_tolerance ↔
      ∃ f ∈ t.features, f.id_number = i ∧
        mzLower f mz_tolerance ≤ query_mz ∧ query_mz < mzUpper f mz_tolerance := by
  simp only [search_for_feature_mz, mzTreeAt, List.mem_map, List.mem_filter,
    Bool.and_eq_true, decide_eq_true_eq]
  constructor
  · rintro ⟨f, ⟨hf, h1, h2⟩, hi⟩
    exact ⟨f, hf, hi, h1, h2⟩
  · rintro ⟨f, hf, hi, h1, h2⟩
    exact ⟨f, ⟨hf, h1, h2⟩, hi⟩

/-- Claim C9: the `missing_dropped_sum_intensity` result of
`intensity_analysis` coincides, sample by sample, with the `sum_intensity`
result on every table: the source assigns the raw column sum to both names. -/
theorem c9_missing_dropped_sum_eq_sum (t : FTable) (s : String) :
    (intensity_analysis t).missing_dropped_sum_intensity s =
      (intensity_analysis t).sum_intensity s := rfl

/-- Claim C10: `num_features` returns one less than the number of feature rows
of the underlying matrix, while `num_samples` returns exactly the number of
sample columns. -/
theorem c10_num_features_off_by_one (t : FTable) :
    num_features t = (t.features.length : ℤ) - 1 ∧
      num_samples t = t.samples.length :=
  ⟨rfl, rfl⟩

/-- Claim C2, counterexample: on the 3-feature table of the end-to-end
scenario, `blank_mask` with ratio 3 does not produce the claimed table with
features 1 and 2 only — the all-zero feature 3 survives, because its nonzero
blank mean and nonzero sample mean are both 0 and `0 * 3 > 0` is false. -/
theorem c2_counterexample :
    (blank_mask c2tbl ["B1", "B2"] ["S1", "S2"] 3).features.map
        (fun f => f.id_number) ≠ [1, 2] ∧
      3 ∈ (blank_mask c2tbl ["B1", "B2"] ["S1", "S2"] 3).features.map
        (fun f => f.id_number) := by
  decide

/-- Claim C2, amended: on the scenario table, `blank_mask` with
`blank_intensity_ratio = 3` keeps features 1 and 2 and also keeps the all-zero
feature 3 (it removes nothing; the all-zero row is only removed later by the
`drop_invariants` call inside `save`). -/
theorem c2_amended :
    (blank_mask c2tbl ["B1", "B2"] ["S1", "S2"] 3).features.map
      (fun f => f.id_number) = [1, 2, 3] := by
  decide

/-- Claim C3, counterexample: a feature whose percent inclusion is below the
threshold in batch `b1` (0 < 0.8) is nevertheless kept by
`drop_missing_features` with `logic_mode="or"`, contradicting the claimed
drop-if-below-in-at-least-one-batch reading. -/
theorem c3_counterexample :
    (∃ cols ∈ batchColumns c3tbl c3batches,
        percentInclusionOn cols c3feat < 8/10) ∧
      (drop_missing_features c3tbl c3batches (8/10) .or).features.map
        (fun f => f.id_number) = [1] := by
  decide

/-- Claim C3, amended: the batched logic of `drop_missing_features` is the
opposite of the claimed one. With `logic_mode="or"` a feature is dropped iff
its percent inclusion is below `drop_percentile` in every batch, and with
`logic_mode="and"` iff it is below in at least one batch. -/
theorem c3_amended (t : FTable) (batches : List (String × List String))
    (drop_percentile : ℚ) (f : Feature) (hf : f ∈ t.features) :
    (f ∉ (drop_missing_features t batches drop_percentile .or).features ↔
        ∀ cols ∈ batchColumns t batches, percentInclusionOn cols f < drop_percentile) ∧
      (f ∉ (drop_missing_features t batches drop_percentile .and).features ↔
        ∃ cols ∈ batchColumns t batches, percentInclusionOn cols f < drop_percentile) := by
  constructor
  · simp [drop_missing_features, List.mem_filter, hf, dropMissingFlag,
      List.any_eq_true, not_le]
  · simp [drop_missing_features, List.mem_filter, hf, dropMissingFlag,
      List.all_eq_true, not_le]

/-- Helper: if the `zeros_only` pass succeeds, nothing in the list was
constant, so the pass returned its input unchanged and the `zeros_only=False`
pass returns the same list. -/
theorem dropConstE_true_ok {α : Type} {isConst : α → Bool} :
    ∀ {l l' : List α}, dropConstE true isConst l = Except.ok l' →
      l' = l ∧ dropConstE false isConst l = Except.ok l := by
  intro l
  induction l with
  | nil =>
    intro l' h
    rw [dropConstE] at h
    cases h
    exact ⟨rfl, rfl⟩
  | cons x xs ih =>
    intro l' h
    rw [dropConstE] at h
    by_cases hc : isConst x = true
    · rw [if_pos hc, if_pos rfl] at h
      exact absurd h (by simp)
    · rw [if_neg hc] at h
      cases hr : dropConstE true isConst xs with
      | error e => rw [hr] at h; exact absurd h (by simp)
      | ok rest =>
        rw [hr] at h
        cases h
        obtain ⟨hrest, hfalse⟩ := ih hr
        subst hrest
        refine ⟨rfl, ?_⟩
        rw [dropConstE, if_neg hc, hfalse]

/-- Claim C4, counterexample: on a table containing a constant feature row,
`drop_invariants(zeros_only=True)` raises `TypeError` (indexing the Python
set of row values) while `drop_invariants(zeros_only=False)` terminates
normally, so the two calls do not produce identical outcomes. -/
theorem c4_counterexample :
    (drop_invariantsE true c4tbl).isOk = false ∧
      (drop_invariantsE false c4tbl).isOk = true := by
  decide

/-- Claim C4, amended: whenever `drop_invariants(zeros_only=True)` terminates
normally (no feature row constant across the sample columns and no sample
column constant across the rows), it agrees with `zeros_only=False` — both
return the table unchanged. On any table with a constant row or column,
`zeros_only=True` raises `TypeError` from the set subscript `values[0]` while
`zeros_only=False` drops the constant entries. -/
theorem c4_amended (t : FTable) (h : (drop_invariantsE true t).isOk = true) :
    drop_invariantsE true t = drop_invariantsE false t := by
  cases hr : dropConstE true (isConstantRow t.samples) t.features with
  | error e =>
    simp [drop_invariantsE, hr, Except.isOk, Except.toBool] at h
  | ok kept =>
    obtain ⟨hk, hrfalse⟩ := dropConstE_true_ok hr
    subst hk
    cases hs : dropConstE true (isConstantCol t.features) t.samples with
    | error e =>
      simp [drop_invariantsE, hr, hs, Except.isOk, Except.toBool] at h
    | ok ks =>
      obtain ⟨hks, hsfalse⟩ := dropConstE_true_ok hs
      subst hks
      simp only [drop_invariantsE, hr, hs, hrfalse, hsfalse]

/-- Claim C4, witness for the amended theorem at a table with no invariant
row or column. -/
theorem c4_amended_witness :
    (drop_invariantsE true noInvTbl).isOk = true ∧
      drop_invariantsE true noInvTbl = drop_invariantsE false noInvTbl :=
  ⟨by decide, c4_amended noInvTbl (by decide)⟩

/-- Claim C8, counterexample: `drop_invariants` is not idempotent. On the
table with rows `(1,5,5)` and `(2,5,5)` the first application keeps both rows
and drops the two constant columns; over the single remaining column both
rows are constant, so the second application drops them. -/
theorem c8_counterexample :
    (drop_invariants (drop_invariants c8tbl)).features.map (fun f => f.id_number) ≠
      (drop_invariants c8tbl).features.map (fun f => f.id_number) := by
  decide

/-- Claim C8, amended: `drop_invariants` applied twice yields the same table
as applied once, provided the first application drops no sample column. (When
it does drop a column, rows that were non-constant can become constant over
the remaining columns and the second application drops them, as the
counterexample shows.) -/
theorem c8_amended (t : FTable) (h : (drop_invariants t).samples = t.samples) :
    drop_invariants (drop_invariants t) = drop_invariants t := by
  have hfilter : ∀ {α : Type} (p : α → Bool) (l : List α),
      (l.filter p).filter p = l.filter p := by
    intro α p l
    rw [List.filter_filter]
    exact List.filter_congr fun a _ => Bool.and_self (p a)
  simp only [drop_invariants] at h ⊢
  rw [h, hfilter, h]

/-- Claim C8, witness for the amended theorem at a table where no sample
column is invariant. -/
theorem c8_amended_witness :
    (drop_invariants noInvTbl).samples = noInvTbl.samples ∧
      drop_invariants (drop_invariants noInvTbl) = drop_invariants noInvTbl :=
  ⟨by decide, c8_amended noInvTbl (by decide)⟩

/-- Claim C5, code-bug evidence: when the embedding fails at every
perplexity, a call starting at perplexity 30 returns Python `None` — not a
tsne result record and not the empty result — because the retry branch
discards the recursive call's value; only a call already at perplexity 0
returns the empty dict. (No exception escapes in either case: `tsneRun` is a
total function.) -/
theorem c5_tsne_returns_none :
    tsneRun (fun _ => false) 30 = TsneOutcome.pyNone ∧
      tsneRun (fun _ => false) 0 = TsneOutcome.emptyDict := by
  decide

/-- Claim C6, counterexample: passing the reserved moniker `"preferred"`
explicitly as `new_moniker` does not raise — `save` runs to completion and
overwrites the experiment's registry entry for `"preferred"`, because the
reserved-name check sits inside the `new_moniker is None` branch only. -/
theorem c6_counterexample :
    (save noInvTbl "mytable" (some "preferred") asariReg).isOk = true ∧
      (match save noInvTbl "mytable" (some "preferred") asariReg with
        | Except.ok p => p.2
        | Except.error _ => []) =
        [("preferred", "preferred_Feature_table.tsv"), ("full", "full_asari.tsv")] := by
  decide

/-- Claim C6, amended: `save` raises the reserved-moniker exception exactly
when `new_moniker` is omitted and the table's own moniker is `"preferred"` or
`"full"`; in every other case — including an explicitly passed reserved name,
which overwrites the persisted entry — it completes and writes the registry. -/
theorem c6_amended (t : FTable) (m : String) (nm : Option String)
    (reg : List (String × String)) :
    (save t m nm reg).isOk = false ↔ nm = none ∧ (m = "preferred" ∨ m = "full") := by
  cases nm with
  | none =>
    by_cases hm : m = "preferred" ∨ m = "full" <;>
      simp [save, hm, Except.isOk, Except.toBool]
  | some s => simp [save, Except.isOk, Except.toBool]

/-- Helper: the fold computing the minimum of a list of positive values
starting from a positive value is positive. -/
theorem foldl_min_pos {x : ℚ} {xs : List ℚ} (hx : 0 < x)
    (hxs : ∀ y ∈ xs, 0 < y) : 0 < xs.foldl Min.min x := by
  induction xs generalizing x with
  | nil => exact hx
  | cons y ys ih =>
    exact ih (lt_min hx (hxs y (List.mem_cons_self y ys)))
      (fun z hz => hxs z (List.mem_cons_of_mem y hz))

/-- Helper: the fold computing the maximum of a list starting from a positive
value is positive. -/
theorem foldl_max_pos {x : ℚ} (xs : List ℚ) (hx : 0 < x) :
    0 < xs.foldl Max.max x := by
  induction xs generalizing x with
  | nil => exact hx
  | cons y ys ih => exact ih (lt_max_iff.mpr (Or.inl hx))

/-- Helper: folding `min` from `c` over copies of `c` yields `c`. -/
theorem foldl_min_replicate (c : ℚ) :
    ∀ n, (List.replicate n c).foldl Min.min c = c
  | 0 => rfl
  | n + 1 => by
    rw [List.replicate_succ, List.foldl_cons, min_self]
    exact foldl_min_replicate c n

/-- Helper: folding `max` from `c` over copies of `c` yields `c`. -/
theorem foldl_max_replicate (c : ℚ) :
    ∀ n, (List.replicate n c).foldl Max.max c = c
  | 0 => rfl
  | n + 1 => by
    rw [List.replicate_succ, List.foldl_cons, max_self]
    exact foldl_max_replicate c n

/-- Helper: the numpy-style median of a nonempty list of positive values is
positive. -/
theorem npMedian_pos {l : List ℚ} (hne : l ≠ []) (h : ∀ x ∈ l, 0 < x) :
    0 < npMedian l := by
  have hlen : 0 < l.length := List.length_pos.mpr hne
  have hslen : (l.insertionSort (· ≤ ·)).length = l.length :=
    (List.perm_insertionSort _ l).length_eq
  have hmem : ∀ i, i < l.length → 0 < (l.insertionSort (· ≤ ·)).getD i 0 := by
    intro i hi
    have hi2 : i < (l.insertionSort (· ≤ ·)).length := by rw [hslen]; exact hi
    rw [List.getD_eq_getElem _ 0 hi2]
    exact h _ ((List.perm_insertionSort _ l).subset (List.getElem_mem hi2))
  have hhalf : l.length / 2 < l.length := Nat.div_lt_self hlen one_lt_two
  simp only [npMedian]
  by_cases hodd : l.length % 2 = 1
  · rw [if_pos hodd]
    exact hmem _ hhalf
  · rw [if_neg hodd]
    exact div_pos
      (add_pos (hmem _ (lt_of_le_of_lt (Nat.sub_le _ _) hhalf)) (hmem _ hhalf))
      two_pos

/-- Helper: the numpy-style median of a nonempty constant list is the
constant. -/
theorem npMedian_replicate {n : ℕ} (hn : n ≠ 0) (c : ℚ) :
    npMedian (List.replicate n c) = c := by
  have hsorted : (List.replicate n c).insertionSort (· ≤ ·) = List.replicate n c :=
    List.Sorted.insertionSort_eq (List.pairwise_replicate.mpr (Or.inr (le_refl c)))
  have hhalf : n / 2 < n := Nat.div_lt_self (Nat.pos_of_ne_zero hn) one_lt_two
  have hgetD : ∀ i, i < n → (List.replicate n c).getD i 0 = c := by
    intro i hi
    rw [List.getD_eq_getElem _ 0 (by simpa using hi)]
    simp
  simp only [npMedian, hsorted, List.length_replicate]
  by_cases hodd : n % 2 = 1
  · rw [if_pos hodd, hgetD _ hhalf]
  · rw [if_neg hodd, hgetD _ hhalf,
      hgetD _ (lt_of_le_of_lt (Nat.sub_le _ _) hhalf), add_self_div_two]

/-- Helper: every modelled central statistic of a nonempty list of positive
values is positive. -/
theorem stat_pos (mode : NormalizeMode) {l : List ℚ} (hne : l ≠ [])
    (h : ∀ x ∈ l, 0 < x) : 0 < mode.stat l := by
  cases mode with
  | median => exact npMedian_pos hne h
  | mean =>
    simp only [NormalizeMode.stat, listMean]
    exact div_pos (List.sum_pos l h hne)
      (by exact_mod_cast List.length_pos.mpr hne)
  | min =>
    cases l with
    | nil => exact absurd rfl hne
    | cons x xs =>
      exact foldl_min_pos (h x (List.mem_cons_self x xs))
        (fun y hy => h y (List.mem_cons_of_mem x hy))
  | max =>
    cases l with
    | nil => exact absurd rfl hne
    | cons x xs => exact foldl_max_pos xs (h x (List.mem_cons_self x xs))

/-- Helper: every modelled central statistic of a nonempty constant list is
the constant. -/
theorem stat_replicate (mode : NormalizeMode) {n : ℕ} (hn : n ≠ 0) (c : ℚ) :
    mode.stat (List.replicate n c) = c := by
  cases mode with
  | median => exact npMedian_replicate hn c
  | mean =>
    simp only [NormalizeMode.stat, listMean, List.sum_replicate,
      List.length_replicate, nsmul_eq_mul]
    exact mul_div_cancel_left₀ c (by exact_mod_cast hn)
  | min =>
    cases n with
    | zero => exact absurd rfl hn
    | succ m =>
      simp only [NormalizeMode.stat, listMin, List.replicate_succ]
      exact foldl_min_replicate c m
  | max =>
    cases n with
    | zero => exact absurd rfl hn
    | succ m =>
      simp only [NormalizeMode.stat, listMax, List.replicate_succ]
      exact foldl_max_replicate c m

/-- Helper: the sample columns of the normalized table are unchanged. -/
theorem TIC_normalize_samples (t : FTable) (pct : ℚ) (mode : NormalizeMode) :
    (TIC_normalize t pct mode).samples = t.samples := rfl

/-- Helper: the rows of the normalized table are the scaled rows. -/
theorem TIC_normalize_features (t : FTable) (pct : ℚ) (mode : NormalizeMode) :
    (TIC_normalize t pct mode).features = t.features.map (scaleFeature t pct mode) := rfl

/-- Helper: scaling by positive per-sample factors does not change a row's
percent inclusion. -/
theorem percent_inclusion_scale (t : FTable) (pct : ℚ) (mode : NormalizeMode)
    (hfac : ∀ s ∈ t.samples, 0 < norm_factor t pct mode s) (f : Feature) :
    percent_inclusion (TIC_normalize t pct mode) (scaleFeature t pct mode f) =
      percent_inclusion t f := by
  have hcount :
      (t.samples.map (scaleFeature t pct mode f).intensity).countP
          (fun x => decide (0 < x)) =
        (t.samples.map f.intensity).countP (fun x => decide (0 < x)) := by
    rw [List.countP_map, List.countP_map]
    apply List.countP_congr
    intro s hs
    simp only [Function.comp_apply, scaleFeature, decide_eq_true_eq]
    rw [if_pos hs]
    exact mul_pos_iff_of_pos_right (hfac s hs)
  simp only [percent_inclusion, TIC_normalize_samples, hcount]

/-- Claim C7: unbatched `TIC_normalize` preserves the central statistic of
the TICs. For every table with at least one sample column and strictly
positive TICs (the sums over the qualifying rows), the central statistic of
the recomputed TICs of the normalized table equals the central statistic of
the pre-normalization TICs: every normalized TIC equals `stat(TICs)` and the
statistic of a constant list is the constant. -/
theorem c7_TIC_normalize_preserves_stat (t : FTable) (pct : ℚ)
    (mode : NormalizeMode) (hne : t.samples ≠ [])
    (hpos : ∀ s ∈ t.samples, 0 < TIC t pct s) :
    mode.stat (sampleTICs (TIC_normalize t pct mode) pct) =
      mode.stat (sampleTICs t pct) := by
  have hTne : sampleTICs t pct ≠ [] := by
    simp only [sampleTICs, ne_eq, List.map_eq_nil_iff]
    exact hne
  have hTpos : ∀ x ∈ sampleTICs t pct, 0 < x := by
    intro x hx
    obtain ⟨s, hs, rfl⟩ := List.mem_map.mp hx
    exact hpos s hs
  have hstatpos : 0 < mode.stat (sampleTICs t pct) := stat_pos mode hTne hTpos
  have hfac : ∀ s ∈ t.samples, 0 < norm_factor t pct mode s := fun s hs =>
    div_pos hstatpos (hpos s hs)
  have hqual : qualifyingFeatures (TIC_normalize t pct mode) pct =
      (qualifyingFeatures t pct).map (scaleFeature t pct mode) := by
    simp only [qualifyingFeatures, TIC_normalize_features]
    rw [List.filter_map]
    congr 1
    apply List.filter_congr
    intro f hf
    simp only [Function.comp_apply]
    rw [percent_inclusion_scale t pct mode hfac f]
  have hTIC : ∀ s ∈ t.samples,
      TIC (TIC_normalize t pct mode) pct s = mode.stat (sampleTICs t pct) := by
    intro s hs
    have hrow : ∀ f : Feature, ((fun g : Feature => g.intensity s) ∘
        scaleFeature t pct mode) f = f.intensity s * norm_factor t pct mode s := by
      intro f
      simp only [Function.comp_apply, scaleFeature]
      rw [if_pos hs]
    simp only [TIC, hqual, List.map_map]
    rw [List.map_congr_left (fun f _ => hrow f), List.sum_map_mul_right]
    show TIC t pct s * norm_factor t pct mode s = mode.stat (sampleTICs t pct)
    rw [norm_factor, mul_div_assoc', mul_comm, mul_div_assoc,
      div_self (ne_of_gt (hpos s hs)), mul_one]
  have hconst : sampleTICs (TIC_normalize t pct mode) pct =
      List.replicate t.samples.length (mode.stat (sampleTICs t pct)) := by
    simp only [sampleTICs, TIC_normalize_samples]
    rw [List.map_congr_left (fun s hs => hTIC s hs), List.map_const']
    exact rfl
  rw [hconst,
    stat_replicate mode (fun h0 => hne (List.length_eq_zero.mp h0)) _]

/-- Claim C7, witness at the concrete two-sample table with one qualifying
row, TICs 10 and 30, and the default median mode. -/
theorem c7_witness :
    c7tbl.samples ≠ [] ∧ (∀ s ∈ c7tbl.samples, 0 < TIC c7tbl (9/10) s) ∧
      NormalizeMode.median.stat
          (sampleTICs (TIC_normalize c7tbl (9/10) NormalizeMode.median) (9/10)) =
        NormalizeMode.median.stat (sampleTICs c7tbl (9/10)) :=
  ⟨by decide, by decide,
    c7_TIC_normalize_preserves_stat c7tbl (9/10) NormalizeMode.median
      (by decide) (by decide)⟩

/-- Claim C3, witness for the amended theorem at the concrete two-batch
table. -/
theorem c3_amended_witness :
    c3feat ∈ c3tbl.features ∧
      ((c3feat ∉ (drop_missing_features c3tbl c3batches (8/10) .or).features ↔
          ∀ cols ∈ batchColumns c3tbl c3batches,
            percentInclusionOn cols c3feat < 8/10) ∧
        (c3feat ∉ (drop_missing_features c3tbl c3batches (8/10) .and).features ↔
          ∃ cols ∈ batchColumns c3tbl c3batches,
            percentInclusionOn cols c3feat < 8/10)) :=
  ⟨List.mem_cons_self _ _, c3_amended c3tbl c3batches (8/10) c3feat (List.mem_cons_self _ _)⟩

end PCPFM
